import Mathlib

/-
Verification of the vacation-dashboard approval-sync engine.

The JavaScript sources are shallowly embedded: JS objects keyed by strings
become association lists (semantics given by findVal, first binding wins),
stateful cycles become explicit state-passing functions, fallible calls
return Option or Except, and wall-clock times are passed as explicit
parameters.
-/

namespace VacDash

/-- Lookup in an association list; the first binding for a key wins.
This is the semantics of reading a property of a JS object. -/
def findVal {α : Type} (m : List (String × α)) (k : String) : Option α :=
  match m with
  | [] => none
  | (k0, v) :: t => if k0 = k then some v else findVal t k

theorem findVal_nil {α : Type} (k : String) : findVal ([] : List (String × α)) k = none := rfl

theorem findVal_cons {α : Type} (k0 k : String) (v : α) (t : List (String × α)) :
    findVal ((k0, v) :: t) k = if k0 = k then some v else findVal t k := rfl

theorem findVal_append {α : Type} (a b : List (String × α)) (k : String) :
    findVal (a ++ b) k = (findVal a k <|> findVal b k) := by
  induction a with
  | nil => simp [findVal]
  | cons p t ih =>
    cases p with
    | mk k0 v =>
      by_cases h : k0 = k
      · simp [findVal, h]
      · simp [findVal, h, ih]

theorem findVal_map_keyed {α β : Type} (l : List (String × α)) (h : String → α → β) (k : String) :
    findVal (l.map (fun p => (p.1, h p.1 p.2))) k = (findVal l k).map (h k) := by
  induction l with
  | nil => simp [findVal]
  | cons p t ih =>
    cases p with
    | mk k0 v =>
      by_cases hk : k0 = k
      · subst hk; simp [findVal]
      · simp [findVal, hk, ih]

/-! ## Status codes and status text (services/active-approvals.js, services/wecom-service.js) -/

/-- Chinese status text for code 1 (pending / 审批中). -/
def PENDING_TEXT : String := "审批中"

/-- Chinese status text for code 2 (approved / 已通过). -/
def APPROVED_TEXT : String := "已通过"

/-- getStatusText from services/wecom-service.js: the status map
1/2/3/4/6/7/10, and null (none) for an unknown code. -/
def getStatusText (statusCode : Nat) : Option String :=
  if statusCode = 1 then some "审批中"
  else if statusCode = 2 then some "已通过"
  else if statusCode = 3 then some "已驳回"
  else if statusCode = 4 then some "已撤销"
  else if statusCode = 6 then some "通过后撤销"
  else if statusCode = 7 then some "已删除"
  else if statusCode = 10 then some "已支付"
  else none

/-- getStatusText from services/active-approvals.js: same map but an unknown
code yields the fallback text 未知. -/
def getStatusTextActive (statusCode : Nat) : String :=
  (getStatusText statusCode).getD "未知"

/-- shouldRemoveFromActive from services/active-approvals.js:
true exactly on the final statuses [2, 3, 4, 6, 7, 10]. -/
def shouldRemoveFromActive (status : Nat) : Bool :=
  [2, 3, 4, 6, 7, 10].contains status

/-! ## C1: the merger (mergeLeaveData, services/sync-scheduler.js lines 63-99) -/

/-- Employee attribute record stored under employeeInfo[userid]. -/
structure EmployeeEntry where
  name : String
  department : String
deriving DecidableEq, Repr

/-- The leave document: leaveData maps userid to a map from date-slot to
status text; employeeInfo maps userid to attributes. -/
structure LeaveStore where
  leaveData : List (String × List (String × String))
  employeeInfo : List (String × EmployeeEntry)
  updatedAt : String
deriving DecidableEq, Repr

/-- Result of mergeLeaveData: the merged store plus the logging counters. -/
structure MergeResult where
  merged : LeaveStore
  newEmployees : Nat
  updatedEmployees : Nat
deriving Repr

/-- mergeLeaveData from services/sync-scheduler.js. employeeInfo: incoming
overwrites per userid. leaveData: for a userid present in both, the two slot
maps are combined by JS object spread with the incoming map last, so the
incoming status wins at every slot it mentions; a userid only in the incoming
data is added; a userid only in the existing data is kept. updatedAt is set
to the fresh timestamp. mergeUserSlots is the per-user slot-map combination
from the body of the forEach: the JS spread of the existing map followed by
the incoming map, so the incoming binding wins (first in our list order). -/
def mergeUserSlots (exLeave : List (String × List (String × String)))
    (userid : String) (incSlots : List (String × String)) : List (String × String) :=
  match findVal exLeave userid with
  | none => incSlots
  | some exu => incSlots ++ exu

def mergeLeaveData (existingData wecomData : LeaveStore) (now : String) : MergeResult :=
  { merged :=
      { leaveData :=
          (wecomData.leaveData.map (fun p =>
            (p.1, mergeUserSlots existingData.leaveData p.1 p.2)))
          ++ existingData.leaveData
      , employeeInfo := wecomData.employeeInfo ++ existingData.employeeInfo
      , updatedAt := now }
  , newEmployees :=
      (wecomData.employeeInfo.filter
        (fun p => (findVal existingData.employeeInfo p.1).isNone)).length
  , updatedEmployees :=
      (wecomData.employeeInfo.filter
        (fun p => (findVal existingData.employeeInfo p.1).isSome)).length }

/-- The status recorded for employee u at date-slot d in a leave store. -/
def getStatus (s : LeaveStore) (u d : String) : Option String :=
  (findVal s.leaveData u).bind (fun m => findVal m d)

/-- C1, counterexample: with a current store holding Approved (已通过) for
(u1, 2026-3.1) and an incoming batch carrying Pending (审批中) for the same
slot, mergeLeaveData returns Pending — the incoming Pending DOES overwrite
the current Approved, so the stickiness stated by the claim fails. -/
theorem C1_counterexample :
    getStatus ⟨[("u1", [("2026-3.1", "已通过")])], [], "t0"⟩ "u1" "2026-3.1"
        = some APPROVED_TEXT
    ∧ getStatus ⟨[("u1", [("2026-3.1", "审批中")])], [], "t1"⟩ "u1" "2026-3.1"
        = some PENDING_TEXT
    ∧ getStatus (mergeLeaveData ⟨[("u1", [("2026-3.1", "已通过")])], [], "t0"⟩
          ⟨[("u1", [("2026-3.1", "审批中")])], [], "t1"⟩ "t2").merged "u1" "2026-3.1"
        = some PENDING_TEXT
    ∧ PENDING_TEXT ≠ APPROVED_TEXT := by
  refine ⟨rfl, rfl, rfl, ?_⟩
  decide

/-- C1, amended: mergeLeaveData resolves every (employee, date-slot) in favour
of the incoming batch unconditionally — including an incoming Pending over a
current Approved — and a slot absent from the incoming batch keeps its current
status: the merged status is the incoming status when present, else the
current one. -/
theorem C1_theorem (ex inc : LeaveStore) (now : String) (u d : String) :
    getStatus (mergeLeaveData ex inc now).merged u d =
      (getStatus inc u d <|> getStatus ex u d) := by
  unfold getStatus mergeLeaveData
  simp only [findVal_append]
  rw [findVal_map_keyed inc.leaveData (mergeUserSlots ex.leaveData) u]
  cases hinc : findVal inc.leaveData u with
  | none => simp
  | some vu =>
    cases hex : findVal ex.leaveData u with
    | none => simp [mergeUserSlots, hex]
    | some exu => simp [mergeUserSlots, hex, findVal_append]

/-! ## C6: window splitting (services/wecom-service.js) -/

/-- One chunk of a timestamp range: inclusive start and stop, Unix seconds. -/
structure TsChunk where
  start : Nat
  stop : Nat
deriving DecidableEq, Repr

/-- The range guard at the top of fetchApprovalListByTimestamp
(services/wecom-service.js lines 114-125): daysDiff is the ceiling of
(endTime - startTime) / 86400 and the request is rejected with
DATE_RANGE_TOO_LARGE when daysDiff exceeds 31. For startTime ≤ endTime the
JS real ceiling equals ceiling division on Nat. -/
def fetchRangeTooLarge (startTime endTime : Nat) : Bool :=
  (endTime - startTime + 86399) / 86400 > 31

/-- The while loop of splitTimestampRangeIntoChunks: while currentStart is
strictly below endTimestamp, emit the chunk ending at
Math.min(currentStart + maxSeconds, endTimestamp) and restart one second
after that end. -/
def splitChunksFrom (maxSeconds endTimestamp currentStart : Nat) : List TsChunk :=
  if h : currentStart < endTimestamp then
    let currentEnd :=
      if currentStart + maxSeconds < endTimestamp then currentStart + maxSeconds
      else endTimestamp
    ⟨currentStart, currentEnd⟩ :: splitChunksFrom maxSeconds endTimestamp (currentEnd + 1)
  else []
termination_by endTimestamp - currentStart
decreasing_by
  simp_wf
  split <;> omega

/-- splitTimestampRangeIntoChunks from services/wecom-service.js lines
691-711: maxSeconds = maxDays * 24 * 60 * 60, then the chunking loop. -/
def splitTimestampRangeIntoChunks (startTimestamp endTimestamp maxDays : Nat) : List TsChunk :=
  splitChunksFrom (maxDays * 24 * 60 * 60) endTimestamp startTimestamp

theorem splitChunksFrom_unfold (m e s : Nat) :
    splitChunksFrom m e s =
      if s < e then
        ((⟨s, if s + m < e then s + m else e⟩ : TsChunk) ::
          splitChunksFrom m e ((if s + m < e then s + m else e) + 1))
      else [] := by
  rw [splitChunksFrom.eq_def]
  by_cases h : s < e
  · simp [h]
  · simp [h]

theorem splitChunks_exact31dPlus1 (t : Nat) :
    splitTimestampRangeIntoChunks t (t + 31 * 86400 + 1) 31 = [⟨t, t + 31 * 86400⟩] := by
  unfold splitTimestampRangeIntoChunks
  rw [splitChunksFrom_unfold]
  have h1 : t < t + 31 * 86400 + 1 := by omega
  have h2 : t + 31 * 24 * 60 * 60 < t + 31 * 86400 + 1 := by omega
  rw [if_pos h1, if_pos h2]
  rw [splitChunksFrom_unfold]
  have h3 : ¬ (t + 31 * 24 * 60 * 60 + 1 < t + 31 * 86400 + 1) := by omega
  rw [if_neg h3]

/-- C6, counterexample: at the concrete start timestamp 1767196800 (the
baseline cursor of the repository), the window of 31 days plus one second is split
into exactly ONE chunk, not two: the next start of the loop lands exactly on the
window end and the strict comparison ends the loop, so the final second is in
no chunk. -/
theorem C6_counterexample :
    splitTimestampRangeIntoChunks 1767196800 (1767196800 + 31 * 86400 + 1) 31
        = [⟨1767196800, 1767196800 + 31 * 86400⟩]
    ∧ (splitTimestampRangeIntoChunks 1767196800 (1767196800 + 31 * 86400 + 1) 31).length ≠ 2 := by
  refine ⟨splitChunks_exact31dPlus1 1767196800, ?_⟩
  rw [splitChunks_exact31dPlus1 1767196800]
  decide

/-- C6, amended: for every start timestamp T, the window [T, T+31*86400] of
exactly 31 days passes the approval-list fetch range guard, and the window
[T, T+31*86400+1] of 31 days plus one second is split into exactly one chunk
[T, T+31*86400] — covering the whole window except its final second — rather
than into two chunks. -/
theorem C6_theorem (t : Nat) :
    fetchRangeTooLarge t (t + 31 * 86400) = false
    ∧ splitTimestampRangeIntoChunks t (t + 31 * 86400 + 1) 31 = [⟨t, t + 31 * 86400⟩] := by
  constructor
  · unfold fetchRangeTooLarge
    have : t + 31 * 86400 - t + 86399 = 2764799 := by omega
    simp [this]
  · exact splitChunks_exact31dPlus1 t

/-! ## Active-index data model (services/active-approvals.js) -/

/-- Cutoff from services/active-approvals.js: only approvals with apply_time
at or after this Unix timestamp are meant to be tracked. -/
def CUTOFF_TIMESTAMP : Nat := 1735660800

/-- Cutoff ISO string from services/active-approvals.js. -/
def CUTOFF_DATE : String := "2026-01-01T00:00:00.000Z"

/-- One ApprovalRecord of the active index, with the fields written at the
two insertion sites (the poller block and the callback pending path). -/
structure ApprovalRecord where
  sp_no : String
  userid : String
  name : String
  department : String
  apply_time : Nat
  submit_time : String
  current_status : Nat
  status_text : String
  leave_dates : List String
  last_checked : Nat
  last_checked_time : String
deriving DecidableEq, Repr

/-- Metadata block of the active-approvals document. -/
structure ActiveMeta where
  cutoffTimestamp : Nat
  cutoffDate : String
deriving DecidableEq, Repr

/-- The persisted active-approvals document. -/
structure ActiveDoc where
  metadata : ActiveMeta
  approvals : List (String × ApprovalRecord)
deriving DecidableEq, Repr

/-- JS property assignment obj[k] = v on an object modelled as an association
list: the binding for k becomes v and all other bindings are untouched (we do
not track JS property order, which none of the verified properties use). -/
def setVal {α : Type} (m : List (String × α)) (k : String) (v : α) : List (String × α) :=
  (k, v) :: m.filter (fun p => !(p.1 == k))

/-- JS delete obj[k]: drop the binding for k. -/
def eraseKey {α : Type} (m : List (String × α)) (k : String) : List (String × α) :=
  m.filter (fun p => !(p.1 == k))

theorem mem_setVal {α : Type} (m : List (String × α)) (k : String) (v : α)
    (e : String × α) (he : e ∈ setVal m k v) : e = (k, v) ∨ e ∈ m := by
  unfold setVal at he
  rcases List.mem_cons.mp he with h | h
  · exact Or.inl h
  · exact Or.inr (List.mem_of_mem_filter h)

theorem mem_eraseKey {α : Type} (m : List (String × α)) (k : String)
    (e : String × α) (he : e ∈ eraseKey m k) : e ∈ m :=
  List.mem_of_mem_filter he

/-! ## C10: total store reads -/

/-- The default leave document produced when loading fails
(services/sync-scheduler.js line 45), with a fresh updatedAt. -/
def defaultLeaveDoc (now : String) : LeaveStore := ⟨[], [], now⟩

/-- The default active-approvals document produced when loading fails
(services/active-approvals.js lines 33-39). -/
def defaultActiveDoc : ActiveDoc := ⟨⟨CUTOFF_TIMESTAMP, CUTOFF_DATE⟩, []⟩

/-- The try block shared by both loaders: if existsSync is true, readFileSync
may throw (Except) and then JSON.parse may throw; a successful run yields the
parsed document, and the file-missing case falls through (none). -/
def tryReadParse {α : Type} (fileExists : Bool) (readResult : Except String String)
    (jsonParse : String → Except String α) : Except String (Option α) :=
  if fileExists then (readResult.bind jsonParse).map some
  else Except.ok none

/-- loadLeaveData from services/sync-scheduler.js lines 36-46: the try block
around existsSync / readFileSync / JSON.parse; any thrown error is caught and
logged, and every non-success path returns the default empty document. -/
def loadLeaveData (fileExists : Bool) (readResult : Except String String)
    (jsonParse : String → Except String LeaveStore) (now : String) : LeaveStore :=
  match tryReadParse fileExists readResult jsonParse with
  | Except.ok (some doc) => doc
  | Except.ok none => defaultLeaveDoc now
  | Except.error _ => defaultLeaveDoc now

/-- loadActiveApprovals from services/active-approvals.js lines 22-40: same
try/catch shape, returning the default document with the cutoff metadata on
any failure. -/
def loadActiveApprovals (fileExists : Bool) (readResult : Except String String)
    (jsonParse : String → Except String ActiveDoc) : ActiveDoc :=
  match tryReadParse fileExists readResult jsonParse with
  | Except.ok (some doc) => doc
  | Except.ok none => defaultActiveDoc
  | Except.error _ => defaultActiveDoc

/-- C10: the two store loaders are total — they are plain functions into the
document types, so no read failure propagates — and on a missing file, a
failing read, or text that does not parse as JSON they return the default
empty structures; only a fully successful read-and-parse returns the parsed
document. -/
theorem C10_theorem (e s : String) (doc : LeaveStore) (adoc : ActiveDoc) (now : String)
    (readResult : Except String String)
    (parseL : String → Except String LeaveStore)
    (parseA : String → Except String ActiveDoc) :
    loadLeaveData false readResult parseL now = defaultLeaveDoc now
    ∧ loadLeaveData true (Except.error e) parseL now = defaultLeaveDoc now
    ∧ loadLeaveData true (Except.ok s) (fun _ => Except.error e) now = defaultLeaveDoc now
    ∧ loadLeaveData true (Except.ok s) (fun _ => Except.ok doc) now = doc
    ∧ loadActiveApprovals false readResult parseA = defaultActiveDoc
    ∧ loadActiveApprovals true (Except.error e) parseA = defaultActiveDoc
    ∧ loadActiveApprovals true (Except.ok s) (fun _ => Except.error e) = defaultActiveDoc
    ∧ loadActiveApprovals true (Except.ok s) (fun _ => Except.ok adoc) = adoc := by
  refine ⟨?_, rfl, rfl, rfl, ?_, rfl, rfl, rfl⟩
  · unfold loadLeaveData tryReadParse
    simp
  · unfold loadActiveApprovals tryReadParse
    simp

/-! ## The transform output and the poller (services/wecom-service.js,
services/sync-scheduler.js) -/

/-- The object literal returned by transformApprovalDetail
(services/wecom-service.js lines 497-504): exactly the keys userid, name,
department, status (a status text), dateKeys (the parsed date-slots) and
isHalfDay — and no others. -/
structure Transformed where
  userid : String
  name : String
  department : String
  status : String
  dateKeys : List String
  isHalfDay : Bool
deriving DecidableEq, Repr

/-- JS member access detail.sp_no on a transform output: the object has no
such property, so the access yields undefined. -/
def Transformed.sp_noProp (_ : Transformed) : Option String := none

/-- JS member access detail.sp_status on a transform output: undefined. -/
def Transformed.sp_statusProp (_ : Transformed) : Option Nat := none

/-- JS member access detail.apply_time on a transform output: undefined. -/
def Transformed.apply_timeProp (_ : Transformed) : Option Nat := none

/-- JS member access detail.sp_name on a transform output: undefined. -/
def Transformed.sp_nameProp (_ : Transformed) : Option String := none

/-- JS optional-chain detail.applier?.userid / detail.applyer?.userid on a
transform output: both bases are undefined, so the whole chain is undefined. -/
def Transformed.applierUseridProp (_ : Transformed) : Option String := none

/-- The value returned by syncLeaveApprovalsByTimestamp
(services/wecom-service.js lines 882-891): the transformed leaveData and
employeeInfo, the counters, and rawDetails — which, per line 890 together
with fetchApprovalDetails (lines 589-591 and 620-621), holds the TRANSFORM
OUTPUTS, not the raw API details. The function returns no spDateKeysMap key. -/
structure WecomSyncView where
  leaveData : List (String × List (String × String))
  employeeInfo : List (String × EmployeeEntry)
  syncedCount : Nat
  skippedCount : Nat
  rawDetails : List Transformed
deriving DecidableEq, Repr

/-- JS member access wecomData.spDateKeysMap: syncLeaveApprovalsByTimestamp
returns an object without that key, so the access yields undefined. -/
def WecomSyncView.spDateKeysMapProp (_ : WecomSyncView) : Option (List (String × List String)) :=
  none

/-- The body of the for-loop over wecomData.rawDetails in
performIncrementalSync (services/sync-scheduler.js lines 191-226), acting on
the accumulator (activeApprovals, newPendingCount). JS semantics of reading
absent properties: detail.sp_status is undefined, so the strict comparison
with 1 is false; undefined >= cutoff is false; undefined === 请假 is false;
activeApprovals[undefined] looks up the string key undefined. -/
def pollActiveStep (wecomData : WecomSyncView) (endTimestamp cutoffTimestamp : Nat)
    (isoOfTs : Nat → String)
    (acc : List (String × ApprovalRecord) × Nat) (detail : Transformed) :
    List (String × ApprovalRecord) × Nat :=
  let activeApprovals := acc.1
  let cond :=
    (detail.sp_statusProp == some 1)
    && (match detail.apply_timeProp with
        | some t => decide (cutoffTimestamp ≤ t)
        | none => false)
    && (detail.sp_nameProp == some "请假")
    && (findVal activeApprovals ((detail.sp_noProp).getD "undefined")).isNone
  if cond then
    match detail.applierUseridProp with
    | none => acc
    | some userid =>
      match findVal wecomData.employeeInfo userid with
      | none => acc
      | some emp =>
        let spNo := (detail.sp_noProp).getD "undefined"
        let apply_time := (detail.apply_timeProp).getD 0
        let approvalDateKeys :=
          ((wecomData.spDateKeysMapProp).bind (fun m => findVal m spNo)).getD []
        (setVal activeApprovals spNo
          ⟨spNo, userid, emp.name, emp.department, apply_time, isoOfTs apply_time,
            1, PENDING_TEXT, approvalDateKeys, endTimestamp, isoOfTs endTimestamp⟩,
         acc.2 + 1)
  else acc

/-- The whole active-index update block of performIncrementalSync: scan
rawDetails, accumulating insertions and the newPendingCount counter. -/
def pollActiveInsert (wecomData : WecomSyncView) (endTimestamp cutoffTimestamp : Nat)
    (isoOfTs : Nat → String) (activeApprovals0 : List (String × ApprovalRecord)) :
    List (String × ApprovalRecord) × Nat :=
  wecomData.rawDetails.foldl (pollActiveStep wecomData endTimestamp cutoffTimestamp isoOfTs)
    (activeApprovals0, 0)

theorem pollActiveInsert_eq (wecomData : WecomSyncView) (endTimestamp cutoffTimestamp : Nat)
    (isoOfTs : Nat → String) (activeApprovals0 : List (String × ApprovalRecord)) :
    pollActiveInsert wecomData endTimestamp cutoffTimestamp isoOfTs activeApprovals0
      = (activeApprovals0, 0) := by
  unfold pollActiveInsert
  have hfold : ∀ (l : List Transformed) (acc : List (String × ApprovalRecord) × Nat),
      l.foldl (pollActiveStep wecomData endTimestamp cutoffTimestamp isoOfTs) acc = acc := by
    intro l
    induction l with
    | nil => intro acc; rfl
    | cons d t ih =>
      intro acc
      rw [List.foldl_cons]
      have hstep : pollActiveStep wecomData endTimestamp cutoffTimestamp isoOfTs acc d = acc := rfl
      rw [hstep, ih acc]
  exact hfold wecomData.rawDetails (activeApprovals0, 0)

/-- C4: the poller NEVER inserts anything into the active index. rawDetails
holds transform outputs, which carry no sp_status property, so the insertion
guard detail.sp_status === 1 compares undefined with 1 and is false for every
record; the active index is returned unchanged and newPendingCount is 0 on
every cycle — in particular no inserted record ever receives the parsed
date-slots, against the stated claim (and against the comments of the block itself,
which expect spDateKeysMap to supply them and the insertion to happen). -/
theorem C4_theorem (wecomData : WecomSyncView) (endTimestamp cutoffTimestamp : Nat)
    (isoOfTs : Nat → String) (activeApprovals0 : List (String × ApprovalRecord)) :
    pollActiveInsert wecomData endTimestamp cutoffTimestamp isoOfTs activeApprovals0
      = (activeApprovals0, 0) :=
  pollActiveInsert_eq wecomData endTimestamp cutoffTimestamp isoOfTs activeApprovals0

/-! ## C3: the status checker (performStatusCheckSync,
services/sync-scheduler.js lines 267-373) -/

/-- One element of the statusChanges list collected by the status checker:
the affected employee, the stored date-slots, and the new status text. -/
structure StatusChange where
  userid : String
  leave_dates : List String
  newStatus : String
deriving DecidableEq, Repr

/-- The body of the details.forEach in performStatusCheckSync (lines
302-337), acting on (activeApprovals, statusChanges). A detail whose sp_no is
not in the map cannot occur (details are fetched for exactly the index keys);
we totalize that case as a skip. On a status change, record it; on a final
new status, delete the entry; otherwise write the new status and the
last-checked stamps back into the entry. -/
def statusCheckLoopStep (nowTs : Nat) (nowIso : String)
    (acc : List (String × ApprovalRecord) × List StatusChange) (detail : String × Nat) :
    List (String × ApprovalRecord) × List StatusChange :=
  match findVal acc.1 detail.1 with
  | none => acc
  | some rec =>
    let newStatus := detail.2
    let changes :=
      if newStatus ≠ rec.current_status then
        acc.2 ++ [⟨rec.userid, rec.leave_dates, getStatusTextActive newStatus⟩]
      else acc.2
    if shouldRemoveFromActive newStatus then
      (eraseKey acc.1 detail.1, changes)
    else
      (setVal acc.1 detail.1
        { rec with current_status := newStatus,
                   status_text := getStatusTextActive newStatus,
                   last_checked := nowTs,
                   last_checked_time := nowIso }, changes)

/-- Step 5 of performStatusCheckSync (lines 340-356): for every recorded
change whose employee exists in the leave document, set each stored date-slot
to the new status text, then refresh updatedAt. -/
def applyStatusChanges (existingData : LeaveStore) (changes : List StatusChange)
    (nowIso : String) : LeaveStore :=
  let ld := changes.foldl
    (fun ld c =>
      match findVal ld c.userid with
      | none => ld
      | some m => setVal ld c.userid (c.leave_dates.foldl (fun m d => setVal m d c.newStatus) m))
    existingData.leaveData
  ⟨ld, existingData.employeeInfo, nowIso⟩

/-- The observable side effects of one status-checker run that the sync-lock
discipline is about. -/
inductive SyncAction where
  | acquire
  | release
  | writeLeave
  | writeActive
deriving DecidableEq, Repr

/-- performStatusCheckSync: load the active index, return if it is empty,
fetch details (token or fetch failure is caught and the run ends with no
write), apply the forEach, write the leave document if any change was
recorded, and write the active index. The body contains no lock operation at
all; the lockHeld parameter carries the lock state at entry and is exposed to
show that the body never consults it. Result: the updated active document,
the updated leave document, and the trace of lock/store actions. -/
def performStatusCheckSync (lockHeld : Bool) (activeDoc : ActiveDoc)
    (fetchResult : Except String (List (String × Nat)))
    (existingData : LeaveStore) (nowTs : Nat) (nowIso : String) :
    ActiveDoc × LeaveStore × List SyncAction :=
  let _ := lockHeld
  let activeApprovals := activeDoc.approvals
  if activeApprovals.length = 0 then (activeDoc, existingData, [])
  else
    match fetchResult with
    | Except.error _ => (activeDoc, existingData, [])
    | Except.ok details =>
      let r := details.foldl (statusCheckLoopStep nowTs nowIso) (activeApprovals, [])
      let store' :=
        if r.2.length > 0 then applyStatusChanges existingData r.2 nowIso else existingData
      (⟨activeDoc.metadata, r.1⟩, store',
       (if r.2.length > 0 then [SyncAction.writeLeave] else []) ++ [SyncAction.writeActive])

/-- C3, counterexample: with the lock BUSY at entry (lockHeld = true), a
one-entry active index and a successful fetch, the status checker still runs
to completion and writes the active index, and its action trace contains no
lock acquisition — refuting both halves of the claim (acquire before any
write; return without writing when the lock is busy). -/
theorem C3_counterexample :
    (performStatusCheckSync true
        ⟨⟨CUTOFF_TIMESTAMP, CUTOFF_DATE⟩,
         [("A1", ⟨"A1", "u1", "Alice", "Eng", 1767196800, "s", 1, "审批中", ["2026-2.14"], 0, "c"⟩)]⟩
        (Except.ok [("A1", 1)]) ⟨[], [], "t"⟩ 5 "now").2.2
      = [SyncAction.writeActive]
    ∧ SyncAction.acquire ∉ [SyncAction.writeActive] := by
  refine ⟨rfl, ?_⟩
  decide

/-- C3, amended: the status checker performs NO lock operation at all — for
every input (including a busy lock) its action trace contains neither an
acquire nor a release — and whenever the active index is nonempty and the
detail fetch succeeds it writes the active index regardless of the lock
state, so its writes to the two stores are never protected by the sync lock. -/
theorem C3_theorem (lockHeld lockHeld2 : Bool) (activeDoc : ActiveDoc)
    (fetchResult : Except String (List (String × Nat)))
    (existingData existingData2 : LeaveStore) (nowTs nowTs2 : Nat) (nowIso nowIso2 : String)
    (meta : ActiveMeta) (p : String × ApprovalRecord) (rest : List (String × ApprovalRecord))
    (details : List (String × Nat)) :
    SyncAction.acquire ∉
        (performStatusCheckSync lockHeld activeDoc fetchResult existingData nowTs nowIso).2.2
    ∧ SyncAction.release ∉
        (performStatusCheckSync lockHeld activeDoc fetchResult existingData nowTs nowIso).2.2
    ∧ SyncAction.writeActive ∈
        (performStatusCheckSync lockHeld2 ⟨meta, p :: rest⟩ (Except.ok details)
          existingData2 nowTs2 nowIso2).2.2 := by
  refine ⟨?_, ?_, ?_⟩
  · unfold performStatusCheckSync
    by_cases h : activeDoc.approvals.length = 0
    · simp [h]
    · cases fetchResult with
      | error e => simp [h]
      | ok details2 =>
        simp only [h, if_false, if_neg h]
        by_cases hc :
            (details2.foldl (statusCheckLoopStep nowTs nowIso) (activeDoc.approvals, [])).2.length > 0 <;>
          simp [hc]
  · unfold performStatusCheckSync
    by_cases h : activeDoc.approvals.length = 0
    · simp [h]
    · cases fetchResult with
      | error e => simp [h]
      | ok details2 =>
        simp only [h, if_false, if_neg h]
        by_cases hc :
            (details2.foldl (statusCheckLoopStep nowTs nowIso) (activeDoc.approvals, [])).2.length > 0 <;>
          simp [hc]
  · unfold performStatusCheckSync
    by_cases hc :
        (details.foldl (statusCheckLoopStep nowTs2 nowIso2) (p :: rest, [])).2.length > 0 <;>
      simp [hc]

/-! ## C5: the incremental sync cycle (performIncrementalSync,
services/sync-scheduler.js lines 139-261) -/

/-- The sync-cursor state persisted in the sync state file. -/
structure SyncState where
  lastSyncEndTimestamp : Nat
  lastSyncTime : String
  totalSynced : Nat
  successfulSyncs : Nat
  failedSyncs : Nat
deriving DecidableEq, Repr

/-- performIncrementalSync. Control flow of the source: skip when the lock
cannot be acquired; skip when no time has passed; any error thrown by the
upstream fetch is caught and counted as a failed cycle with the cursor left
unchanged. saveLeaveData (lines 51-57) wraps fs.writeFileSync in try/catch
and only logs a failure, so a failed leave-store write (leaveWriteOk = false)
leaves the on-disk document unchanged and the cycle continues; the
active-index block then runs (see pollActiveInsert) and the cursor state is
advanced and counted as successful. Returns the persisted sync state, the
on-disk leave document, and the active index. -/
def performIncrementalSync (lockFree : Bool) (syncState : SyncState)
    (endTimestamp : Nat) (nowIso : String) (isoOfTs : Nat → String)
    (fetchResult : Except String WecomSyncView)
    (existingData : LeaveStore) (leaveWriteOk : Bool)
    (activeIdx : List (String × ApprovalRecord)) :
    SyncState × LeaveStore × List (String × ApprovalRecord) :=
  if !lockFree then (syncState, existingData, activeIdx)
  else if endTimestamp ≤ syncState.lastSyncEndTimestamp then (syncState, existingData, activeIdx)
  else
    match fetchResult with
    | Except.error _ =>
      ({ syncState with failedSyncs := syncState.failedSyncs + 1 }, existingData, activeIdx)
    | Except.ok wecomData =>
      let mr := mergeLeaveData existingData
        ⟨wecomData.leaveData, wecomData.employeeInfo, ""⟩ nowIso
      let disk' := if leaveWriteOk then mr.merged else existingData
      let ins := pollActiveInsert wecomData endTimestamp CUTOFF_TIMESTAMP isoOfTs activeIdx
      let activeIdx' := if ins.2 > 0 then ins.1 else activeIdx
      ({ lastSyncEndTimestamp := endTimestamp
       , lastSyncTime := isoOfTs endTimestamp
       , totalSynced := syncState.totalSynced + wecomData.syncedCount
       , successfulSyncs := syncState.successfulSyncs + 1
       , failedSyncs := syncState.failedSyncs },
       disk', activeIdx')

/-- C5, counterexample: a cycle over window [100, 200] whose leave-store
write FAILS still advances the cursor to 200 and counts the cycle as
successful — the failure is swallowed inside saveLeaveData instead of being
raised, and the cursor is not left unchanged as the claim states. -/
theorem C5_counterexample :
    (performIncrementalSync true ⟨100, "t0", 0, 0, 0⟩ 200 "now" (fun _ => "iso")
        (Except.ok ⟨[], [], 0, 0, []⟩) ⟨[], [], "old"⟩ false []).1
      = ⟨200, "iso", 0, 1, 0⟩
    ∧ (200 : Nat) ≠ 100 := by
  refine ⟨rfl, ?_⟩
  decide

/-- C5, amended: when the leave-store write fails during an incremental
cycle, the error is caught and logged inside saveLeaveData and nothing is
raised to the caller of the cycle; the on-disk leave document keeps its
previous content, yet the cycle still completes as SUCCESSFUL — the cursor
advances to the window end and successfulSyncs is incremented. -/
theorem C5_theorem (syncState : SyncState) (endTimestamp : Nat) (nowIso : String)
    (isoOfTs : Nat → String) (wecomData : WecomSyncView)
    (existingData : LeaveStore) (activeIdx : List (String × ApprovalRecord))
    (h : syncState.lastSyncEndTimestamp < endTimestamp) :
    (performIncrementalSync true syncState endTimestamp nowIso isoOfTs
        (Except.ok wecomData) existingData false activeIdx).1.lastSyncEndTimestamp
      = endTimestamp
    ∧ (performIncrementalSync true syncState endTimestamp nowIso isoOfTs
        (Except.ok wecomData) existingData false activeIdx).1.successfulSyncs
      = syncState.successfulSyncs + 1
    ∧ (performIncrementalSync true syncState endTimestamp nowIso isoOfTs
        (Except.ok wecomData) existingData false activeIdx).2.1
      = existingData := by
  have h2 : ¬ (endTimestamp ≤ syncState.lastSyncEndTimestamp) := by omega
  unfold performIncrementalSync
  simp [h2]

/-- Witness for C5: a concrete run with start cursor 100 and window end 200. -/
theorem C5_witness :
    (performIncrementalSync true ⟨100, "t0", 7, 3, 2⟩ 200 "now" (fun _ => "iso")
        (Except.ok ⟨[], [], 0, 0, []⟩) ⟨[], [], "old"⟩ false []).1.lastSyncEndTimestamp
      = 200
    ∧ (performIncrementalSync true ⟨100, "t0", 7, 3, 2⟩ 200 "now" (fun _ => "iso")
        (Except.ok ⟨[], [], 0, 0, []⟩) ⟨[], [], "old"⟩ false []).1.successfulSyncs
      = 3 + 1
    ∧ (performIncrementalSync true ⟨100, "t0", 7, 3, 2⟩ 200 "now" (fun _ => "iso")
        (Except.ok ⟨[], [], 0, 0, []⟩) ⟨[], [], "old"⟩ false []).2.1
      = ⟨[], [], "old"⟩ :=
  C5_theorem ⟨100, "t0", 7, 3, 2⟩ 200 "now" (fun _ => "iso") ⟨[], [], 0, 0, []⟩
    ⟨[], [], "old"⟩ [] (by decide)

/-! ## Callback dispatch (services/callback-handler.js) and the combined
state machine over the leave store and the active index (C2) -/

/-- The fields of a fresh API approval detail that the callback dispatch
reads directly. -/
structure CallbackDetail where
  sp_no : String
  sp_status : Nat
  apply_time : Nat
deriving DecidableEq, Repr

/-- The module.exports object of services/wecom-service.js (lines 951-959) —
the only members a require of that module exposes. getApprovalDetail,
getStatusText, transformApprovalDetail, parseVacationData and
generateDateKeys are all defined inside the module but do NOT appear in this
list, so reading any of them off the required module object yields undefined,
and calling that undefined value throws a TypeError at the callsite. -/
def wecomServiceExports : List String :=
  ["syncLeaveApprovals", "syncLeaveApprovalsByTimestamp",
   "fetchApprovalDetailsForStatusCheck", "getAccessToken",
   "WecomAuthError", "WecomAPIError", "DataTransformError"]

/-- buildWecomDataFromTransformed (callback handler): leaveData maps the one
userid to a map carrying the transform status at every parsed date-slot, and
employeeInfo maps it to the name and department. -/
def buildWecomDataFromTransformed (t : Transformed) : LeaveStore :=
  ⟨[(t.userid, t.dateKeys.map (fun d => (d, t.status)))],
   [(t.userid, ⟨t.name, t.department⟩)], ""⟩

/-- processPendingApproval (callback handler, status 1). Its FIRST statement
(part_003:2053) calls wecomService.transformApprovalDetail — a member the
wecom-service module does not export — so in the program the call throws a
TypeError before any store access; the exception propagates to the catch in
processApprovalChange (part_003:2041) and the state is unchanged. The guarded
body mirrors the source for the counterfactual exported case: when the
transform succeeds, merge the one-approval batch into the leave document and
insert an ApprovalRecord with current_status 1, the apply_time of the detail
(no cutoff comparison appears anywhere on this path) and the date-slots of
the transform; when the transform fails, skip. -/
def processPendingApproval (detail : CallbackDetail) (transformed : Option Transformed)
    (nowTs : Nat) (nowIso : String) (isoOfTs : Nat → String)
    (st : LeaveStore × List (String × ApprovalRecord)) :
    LeaveStore × List (String × ApprovalRecord) :=
  if wecomServiceExports.contains "transformApprovalDetail" then
    match transformed with
    | none => st
    | some tr =>
      let wecomData := buildWecomDataFromTransformed tr
      let merged := (mergeLeaveData st.1 wecomData nowIso).merged
      (merged,
       setVal st.2 detail.sp_no
         ⟨detail.sp_no, tr.userid, tr.name, tr.department, detail.apply_time,
          isoOfTs detail.apply_time, 1, PENDING_TEXT, tr.dateKeys, nowTs, nowIso⟩)
  else st

/-- processApprovedApproval (callback handler, status 2): fast path when the
approval is tracked — set every stored slot of that employee to Approved and
delete the entry (this path calls no wecom-service member); slow path
otherwise — it starts by calling wecomService.transformApprovalDetail
(part_003:2112), which is not exported, so in the program the slow path
throws a TypeError that the caller catches, leaving the state unchanged. -/
def processApprovedApproval (detail : CallbackDetail) (transformed : Option Transformed)
    (nowIso : String) (st : LeaveStore × List (String × ApprovalRecord)) :
    LeaveStore × List (String × ApprovalRecord) :=
  match findVal st.2 detail.sp_no with
  | some activeEntry =>
    let store' :=
      match findVal st.1.leaveData activeEntry.userid with
      | none => st.1
      | some m =>
        ⟨setVal st.1.leaveData activeEntry.userid
           (activeEntry.leave_dates.foldl (fun m d => setVal m d APPROVED_TEXT) m),
         st.1.employeeInfo, nowIso⟩
    (store', eraseKey st.2 detail.sp_no)
  | none =>
    if wecomServiceExports.contains "transformApprovalDetail" then
      match transformed with
      | none => st
      | some tr =>
        ((mergeLeaveData st.1 (buildWecomDataFromTransformed tr) nowIso).merged, st.2)
    else st

/-- processFinalizedApproval (callback handler, status 3/4/6/7/10): when
tracked, write the new status text to every stored slot and delete the entry
(no wecom-service member involved); when untracked, the source first calls
wecomService.parseVacationData (part_003:2153) and then
wecomService.generateDateKeys (part_003:2159) — neither is exported, so in
the program this path throws a TypeError that the caller catches, leaving the
state unchanged. The guarded body mirrors the source for the counterfactual
exported case, with the parse results passed in as parsedDateKeys (none when
parsing failed). -/
def processFinalizedApproval (detail : CallbackDetail) (statusText : String)
    (parsedDateKeys : Option (List String)) (useridOpt : Option String)
    (nowIso : String) (st : LeaveStore × List (String × ApprovalRecord)) :
    LeaveStore × List (String × ApprovalRecord) :=
  match findVal st.2 detail.sp_no with
  | some activeEntry =>
    let store' :=
      match findVal st.1.leaveData activeEntry.userid with
      | none => st.1
      | some m =>
        ⟨setVal st.1.leaveData activeEntry.userid
           (activeEntry.leave_dates.foldl (fun m d => setVal m d statusText) m),
         st.1.employeeInfo, nowIso⟩
    (store', eraseKey st.2 detail.sp_no)
  | none =>
    if wecomServiceExports.contains "parseVacationData"
        && wecomServiceExports.contains "generateDateKeys" then
      match parsedDateKeys with
      | none => st
      | some dateKeys =>
        if dateKeys.length = 0 then st
        else
          match useridOpt with
          | none => st
          | some userid =>
            match findVal st.1.leaveData userid with
            | none => st
            | some m =>
              (⟨setVal st.1.leaveData userid
                  (dateKeys.foldl (fun m d => setVal m d statusText) m),
                st.1.employeeInfo, nowIso⟩, st.2)
    else st

/-- processApprovalChange (callback handler, part_003:2015-2044). After the
exported wecomService.getAccessToken resolves (a rejection would be caught
with the same unchanged-state outcome), line 2019 calls
wecomService.getApprovalDetail and line 2024 wecomService.getStatusText —
neither is exported from services/wecom-service.js, so the first of these
throws a TypeError which the catch at 2041-2043 swallows after logging:
every real invocation leaves both stores unchanged and the dispatch below is
unreachable. The guarded body mirrors the source dispatch for the
counterfactual exported case: an unknown status code has no status text and
is skipped; otherwise dispatch on the API status. -/
def processApprovalChange (detail : CallbackDetail) (transformed : Option Transformed)
    (parsedDateKeys : Option (List String)) (useridOpt : Option String)
    (nowTs : Nat) (nowIso : String) (isoOfTs : Nat → String)
    (st : LeaveStore × List (String × ApprovalRecord)) :
    LeaveStore × List (String × ApprovalRecord) :=
  if wecomServiceExports.contains "getApprovalDetail" then
    if wecomServiceExports.contains "getStatusText" then
      match getStatusText detail.sp_status with
      | none => st
      | some statusText =>
        if detail.sp_status = 1 then
          processPendingApproval detail transformed nowTs nowIso isoOfTs st
        else if detail.sp_status = 2 then
          processApprovedApproval detail transformed nowIso st
        else
          processFinalizedApproval detail statusText parsedDateKeys useridOpt nowIso st
    else st
  else st

theorem processApprovalChange_eq (detail : CallbackDetail) (transformed : Option Transformed)
    (parsedDateKeys : Option (List String)) (useridOpt : Option String)
    (nowTs : Nat) (nowIso : String) (isoOfTs : Nat → String)
    (st : LeaveStore × List (String × ApprovalRecord)) :
    processApprovalChange detail transformed parsedDateKeys useridOpt
      nowTs nowIso isoOfTs st = st := rfl

/-- One update operation of the three converging sources. The external data
each operation consumes (fetched views, fetched details, transform and parse
results) is carried by the operation. -/
inductive SyncOp where
  | poll (wecomData : WecomSyncView) (endTimestamp : Nat) (nowIso : String)
      (isoOfTs : Nat → String)
  | statusCheck (details : List (String × Nat)) (nowTs : Nat) (nowIso : String)
  | callback (detail : CallbackDetail) (transformed : Option Transformed)
      (parsedDateKeys : Option (List String)) (useridOpt : Option String)
      (nowTs : Nat) (nowIso : String) (isoOfTs : Nat → String)

/-- Effect of one operation on the shared state (leave document, active
index): the poll merges and runs its insertion block; the status check runs
its forEach and conditional store update; the callback dispatches. -/
def applyOp (st : LeaveStore × List (String × ApprovalRecord)) (op : SyncOp) :
    LeaveStore × List (String × ApprovalRecord) :=
  match op with
  | SyncOp.poll wecomData endTimestamp nowIso isoOfTs =>
    let merged := (mergeLeaveData st.1
      ⟨wecomData.leaveData, wecomData.employeeInfo, ""⟩ nowIso).merged
    let ins := pollActiveInsert wecomData endTimestamp CUTOFF_TIMESTAMP isoOfTs st.2
    (merged, if ins.2 > 0 then ins.1 else st.2)
  | SyncOp.statusCheck details nowTs nowIso =>
    if st.2.length = 0 then st
    else
      let r := details.foldl (statusCheckLoopStep nowTs nowIso) (st.2, [])
      (if r.2.length > 0 then applyStatusChanges st.1 r.2 nowIso else st.1, r.1)
  | SyncOp.callback detail transformed parsedDateKeys useridOpt nowTs nowIso isoOfTs =>
    processApprovalChange detail transformed parsedDateKeys useridOpt nowTs nowIso isoOfTs st

/-- Run a sequence of update operations from an initial state. -/
def runOps (ops : List SyncOp) (st0 : LeaveStore × List (String × ApprovalRecord)) :
    LeaveStore × List (String × ApprovalRecord) :=
  ops.foldl applyOp st0

theorem applyOp_empty_index (st : LeaveStore × List (String × ApprovalRecord))
    (op : SyncOp) (h : st.2 = []) : (applyOp st op).2 = [] := by
  cases op with
  | poll wecomData endTimestamp nowIso isoOfTs =>
    simp [applyOp, pollActiveInsert_eq, h]
  | statusCheck details nowTs nowIso =>
    simp [applyOp, h]
  | callback detail transformed parsedDateKeys useridOpt nowTs nowIso isoOfTs =>
    simp only [applyOp, processApprovalChange_eq]
    exact h

theorem runOps_empty_index (ops : List SyncOp)
    (st : LeaveStore × List (String × ApprovalRecord)) (h : st.2 = []) :
    (runOps ops st).2 = [] := by
  induction ops generalizing st with
  | nil => exact h
  | cons op t ih =>
    rw [runOps, List.foldl_cons]
    exact ih (applyOp st op) (applyOp_empty_index st op h)

/-- C2: active-index soundness. None of the three update operations can ever
insert an active-index entry: the poller insertion guard never fires (its
rawDetails lack the properties it tests, see pollActiveInsert), the callback
dispatch throws a caught TypeError on the unexported
wecomService.getApprovalDetail before reaching any store write, and the
status checker only updates or deletes entries already present. Starting from
the empty index, every state reachable by any sequence of the three
operations therefore has an EMPTY active index, and in particular every entry
of the active index has current_status = Pending (1) and apply_time at or
above the configured cutoff. -/
theorem C2_theorem (ops : List SyncOp) (st0 : LeaveStore) :
    (runOps ops (st0, [])).2 = []
    ∧ ∀ e ∈ (runOps ops (st0, [])).2,
        e.2.current_status = 1 ∧ CUTOFF_TIMESTAMP ≤ e.2.apply_time := by
  have h : (runOps ops (st0, [])).2 = [] := runOps_empty_index ops (st0, []) rfl
  refine ⟨h, ?_⟩
  intro e he
  rw [h] at he
  cases he

/-! ## C7: POST /callback always answers success (server, callback routes) -/

/-- JS falsiness of a query parameter: absent, or the empty string. -/
def jsFalsy (o : Option String) : Bool :=
  match o with
  | none => true
  | some s => s.isEmpty

/-- The query parameters of a callback invocation. -/
structure CallbackQuery where
  msg_signature : Option String
  timestamp : Option String
  nonce : Option String
deriving Repr

/-- Outcomes of the externally-evaluated steps inside the POST /callback
route: whether callback credentials are configured (a valid-key WecomCrypto
instance exists), the Encrypt field extracted from the XML body (extractXmlField
is total and yields null when absent), the signature check, the decrypt call
(which throws on failure, modelled as Except), and the MsgType/Event fields
of the decrypted XML. -/
structure PostCallbackEnv where
  cryptoConfigured : Bool
  extractEncrypt : Option String
  verifyOk : Bool
  decryptResult : Except String String
  msgType : Option String
  event : Option String
deriving Repr

/-- The POST /callback route. Every branch — missing parameters, missing
credentials, missing Encrypt field, failed signature check, decrypt throwing
(the catch), and both sides of the event filter — responds with sendSuccess;
the approval-change handler is dispatched fire-and-forget with its rejection
caught, so it cannot affect the response either. -/
def postCallback (q : CallbackQuery) (env : PostCallbackEnv) : String :=
  if jsFalsy q.msg_signature || jsFalsy q.timestamp || jsFalsy q.nonce then "success"
  else if !env.cryptoConfigured then "success"
  else
    match env.extractEncrypt with
    | none => "success"
    | some enc =>
      if enc.isEmpty then "success"
      else if !env.verifyOk then "success"
      else
        match env.decryptResult with
        | Except.error _ => "success"
        | Except.ok _ =>
          if env.msgType == some "event" && env.event == some "sys_approval_change" then
            "success"
          else "success"

/-- C7: for every POST /callback invocation — any combination of missing or
present query parameters, any body, and whatever the outcomes of signature
verification, decryption and event parsing — the HTTP response body is
exactly the string success. -/
theorem C7_theorem (q : CallbackQuery) (env : PostCallbackEnv) :
    postCallback q env = "success" := by
  unfold postCallback
  repeat' split
  all_goals rfl

/-! ## C9: queue drain dedup (drainQueue, callback handler) -/

/-- JS Map.prototype.set on an insertion-ordered association list: overwrite
the value of an existing key in place, else append the new binding. -/
def mapSet (m : List (String × Nat)) (k : String) (v : Nat) : List (String × Nat) :=
  if m.any (fun p => decide (p.1 = k)) then
    m.map (fun p => if p.1 = k then (k, v) else p)
  else m ++ [(k, v)]

/-- The dedupe loop of drainQueue: fold the drained items into a Map keyed by
spNo; a later queue entry for the same spNo overwrites, so the latest status
wins. -/
def dedupeBySpNo (items : List (String × Nat)) : List (String × Nat) :=
  items.foldl (fun m i => mapSet m i.1 i.2) []

/-- drainQueue: return untouched when the queue is empty, when the lock reads
as held, or when the acquire fails (one boolean lock, so the last two
coincide); otherwise splice out the whole queue, dedupe it, and dispatch each
deduplicated (spNo, status) pair. Returns the queue after the call and the
dispatched list. -/
def drainQueue (pendingQueue : List (String × Nat)) (lockHeld : Bool) :
    List (String × Nat) × List (String × Nat) :=
  if pendingQueue.length = 0 then (pendingQueue, [])
  else if lockHeld then (pendingQueue, [])
  else ([], dedupeBySpNo pendingQueue)

theorem orElse_none_opt {α : Type} (x : Option α) : (x <|> none) = x := by
  cases x <;> rfl

theorem findVal_isSome_iff_mem_keys (m : List (String × Nat)) (s : String) :
    (findVal m s).isSome = true ↔ s ∈ m.map Prod.fst := by
  induction m with
  | nil => simp [findVal]
  | cons p t ih =>
    obtain ⟨k0, v0⟩ := p
    by_cases hk : k0 = s
    · subst hk
      simp [findVal]
    · have hsk : ¬ s = k0 := fun h => hk h.symm
      simp [findVal, hk, hsk, ih]

theorem findVal_replaceKey (m : List (String × Nat)) (k : String) (v : Nat) (s : String) :
    findVal (m.map (fun p => if p.1 = k then (k, v) else p)) s =
      if s = k then (if (findVal m k).isSome then some v else none)
      else findVal m s := by
  induction m with
  | nil => by_cases hsk : s = k <;> simp [findVal, hsk]
  | cons p t ih =>
    obtain ⟨k0, v0⟩ := p
    by_cases hk : k0 = k
    · have hhead : (if (k0, v0).1 = k then (k, v) else (k0, v0)) = (k, v) := if_pos hk
      simp only [List.map_cons, hhead]
      subst hk
      by_cases hsk : s = k0
      · subst hsk
        simp [findVal]
      · have hks : ¬ k0 = s := fun h => hsk h.symm
        simp [findVal, hsk, hks, ih]
    · have hhead : (if (k0, v0).1 = k then (k, v) else (k0, v0)) = (k0, v0) := if_neg hk
      simp only [List.map_cons, hhead]
      by_cases hs : k0 = s
      · subst hs
        have hsk : ¬ k0 = k := hk
        simp [findVal, hk, hsk]
      · simp [findVal, hk, hs, ih]

theorem findVal_eq_none_of_not_any (m : List (String × Nat)) (k : String)
    (h : m.any (fun p => decide (p.1 = k)) = false) : findVal m k = none := by
  induction m with
  | nil => rfl
  | cons p t ih =>
    obtain ⟨k0, v0⟩ := p
    by_cases hk : k0 = k
    · rw [List.any_cons] at h
      simp [hk] at h
    · rw [List.any_cons] at h
      simp only [findVal, if_neg hk]
      apply ih
      simpa [hk] using h

theorem findVal_mapSet (m : List (String × Nat)) (k : String) (v : Nat) (s : String) :
    findVal (mapSet m k v) s = if k = s then some v else findVal m s := by
  unfold mapSet
  by_cases hany : m.any (fun p => decide (p.1 = k)) = true
  · rw [if_pos hany, findVal_replaceKey]
    by_cases hsk : s = k
    · subst hsk
      have hmem : s ∈ m.map Prod.fst := by
        rcases List.any_eq_true.mp hany with ⟨p, hp, hps⟩
        have hp1 : p.1 = s := by simpa using hps
        exact hp1 ▸ List.mem_map.mpr ⟨p, hp, rfl⟩
      have hsome : (findVal m s).isSome = true :=
        (findVal_isSome_iff_mem_keys m s).mpr hmem
      rw [if_pos rfl, if_pos hsome, if_pos rfl]
    · have hks : ¬ k = s := fun h => hsk h.symm
      rw [if_neg hsk, if_neg hks]
  · have hany2 : m.any (fun p => decide (p.1 = k)) = false := by
      cases hx : m.any (fun p => decide (p.1 = k)) with
      | false => rfl
      | true => exact absurd hx hany
    rw [if_neg hany, findVal_append]
    have hnone : findVal m k = none := findVal_eq_none_of_not_any m k hany2
    by_cases hks : k = s
    · subst hks
      rw [hnone]
      simp [findVal]
    · rw [if_neg hks]
      simp [findVal, hks, orElse_none_opt]

theorem findVal_foldl_mapSet (l : List (String × Nat)) (m : List (String × Nat)) (s : String) :
    findVal (l.foldl (fun m i => mapSet m i.1 i.2) m) s =
      (findVal l.reverse s <|> findVal m s) := by
  induction l generalizing m with
  | nil => simp [findVal]
  | cons i t ih =>
    rw [List.foldl_cons, ih, List.reverse_cons, findVal_append]
    rw [findVal_mapSet]
    cases hrev : findVal t.reverse s with
    | some w => simp
    | none =>
      by_cases his : i.1 = s
      · simp [findVal, his]
      · simp [findVal, his]

theorem keys_replaceKey (m : List (String × Nat)) (k : String) (v : Nat) :
    (m.map (fun p => if p.1 = k then (k, v) else p)).map Prod.fst = m.map Prod.fst := by
  induction m with
  | nil => rfl
  | cons p t ih =>
    obtain ⟨k0, v0⟩ := p
    by_cases hk : k0 = k
    · have hhead : (if (k0, v0).1 = k then (k, v) else (k0, v0)) = (k, v) := if_pos hk
      simp only [List.map_cons, hhead, ih]
      simp [hk]
    · have hhead : (if (k0, v0).1 = k then (k, v) else (k0, v0)) = (k0, v0) := if_neg hk
      simp only [List.map_cons, hhead, ih]

theorem nodupKeys_mapSet (m : List (String × Nat)) (k : String) (v : Nat)
    (h : (m.map Prod.fst).Nodup) : ((mapSet m k v).map Prod.fst).Nodup := by
  unfold mapSet
  by_cases hany : m.any (fun p => decide (p.1 = k)) = true
  · rw [if_pos hany, keys_replaceKey]
    exact h
  · have hany2 : m.any (fun p => decide (p.1 = k)) = false := by
      cases hx : m.any (fun p => decide (p.1 = k)) with
      | false => rfl
      | true => exact absurd hx hany
    rw [if_neg hany]
    have hnotmem : k ∉ m.map Prod.fst := by
      intro hmem
      rcases List.mem_map.mp hmem with ⟨p, hp, hpk⟩
      have hcontra : m.any (fun p => decide (p.1 = k)) = true := by
        refine List.any_eq_true.mpr ⟨p, hp, ?_⟩
        simp [hpk]
      rw [hcontra] at hany2
      exact Bool.noConfusion hany2
    simp only [List.map_append, List.map_cons, List.map_nil]
    rw [List.nodup_append]
    refine ⟨h, List.nodup_singleton k, ?_⟩
    intro a ha hb
    simp only [List.mem_singleton] at hb
    subst hb
    exact hnotmem ha

theorem nodupKeys_foldl_mapSet (l : List (String × Nat)) (m : List (String × Nat))
    (h : (m.map Prod.fst).Nodup) :
    ((l.foldl (fun m i => mapSet m i.1 i.2) m).map Prod.fst).Nodup := by
  induction l generalizing m with
  | nil => exact h
  | cons i t ih =>
    rw [List.foldl_cons]
    exact ih _ (nodupKeys_mapSet m i.1 i.2 h)

/-- C9: when the drain timer fires with the lock free and a non-empty queue,
the queue is emptied, the dispatched list carries each distinct spNo of the
queue exactly once (its keys are duplicate-free and are exactly the queued
spNos), and the status dispatched for a spNo is the status of the latest
queued entry for it (the first binding in the reversed queue). -/
theorem C9_theorem (pendingQueue : List (String × Nat)) (lockHeld : Bool) (s : String)
    (hq : pendingQueue ≠ []) (hl : lockHeld = false) :
    (drainQueue pendingQueue lockHeld).1 = []
    ∧ (((drainQueue pendingQueue lockHeld).2.map Prod.fst).Nodup)
    ∧ ((s ∈ (drainQueue pendingQueue lockHeld).2.map Prod.fst) ↔
        s ∈ pendingQueue.map Prod.fst)
    ∧ findVal (drainQueue pendingQueue lockHeld).2 s = findVal pendingQueue.reverse s := by
  subst hl
  have hlen : ¬ (pendingQueue.length = 0) := by
    simpa [List.length_eq_zero] using hq
  unfold drainQueue
  rw [if_neg hlen, if_neg (by simp)]
  have hfv : findVal (dedupeBySpNo pendingQueue) s = findVal pendingQueue.reverse s := by
    unfold dedupeBySpNo
    rw [findVal_foldl_mapSet]
    simp [findVal, orElse_none_opt]
  refine ⟨rfl, ?_, ?_, hfv⟩
  · exact nodupKeys_foldl_mapSet pendingQueue [] (by simp)
  · constructor
    · intro hmem
      have h1 := (findVal_isSome_iff_mem_keys _ s).mpr hmem
      rw [hfv] at h1
      have h2 := (findVal_isSome_iff_mem_keys _ s).mp h1
      simpa using h2
    · intro hmem
      apply (findVal_isSome_iff_mem_keys _ s).mp
      rw [hfv]
      apply (findVal_isSome_iff_mem_keys _ s).mpr
      simpa using hmem

/-- Witness for C9: a concrete queue with two entries for spNo a (statuses 1
then 2) and one for b; after the drain the queue is empty, the dispatch keys
are duplicate-free, a is dispatched, and its dispatched status is the latest
queued one. -/
theorem C9_witness :
    (drainQueue [("a", 1), ("a", 2), ("b", 3)] false).1 = []
    ∧ (((drainQueue [("a", 1), ("a", 2), ("b", 3)] false).2.map Prod.fst).Nodup)
    ∧ (("a" ∈ (drainQueue [("a", 1), ("a", 2), ("b", 3)] false).2.map Prod.fst) ↔
        "a" ∈ ([("a", 1), ("a", 2), ("b", 3)] : List (String × Nat)).map Prod.fst)
    ∧ findVal (drainQueue [("a", 1), ("a", 2), ("b", 3)] false).2 "a"
        = findVal ([("a", 1), ("a", 2), ("b", 3)] : List (String × Nat)).reverse "a" :=
  C9_theorem [("a", 1), ("a", 2), ("b", 3)] false "a" (by decide) rfl

/-! ## C8: crypto round-trip (services/wecom-crypto.js)

Byte sequences are lists of Nat byte values. The AES-256-CBC layer (the Node
createCipheriv/createDecipheriv with the key decoded from the 43-character
EncodingAESKey and the IV equal to its first 16 bytes, padding disabled) is an
external library primitive; it is carried as a pair of functions whose only
assumed property is that deciphering inverts enciphering, which is what the
library guarantees for a fixed key and IV. Everything the repository itself
implements — the 16-byte random prefix, the 4-byte big-endian length field,
the trailing recipient identifier and its check, and the manual PKCS#7
padding at 32-byte block size — is embedded below byte for byte. -/

/-- Buffer.writeUInt32BE: the four big-endian bytes of n. -/
def writeUInt32BE (n : Nat) : List Nat :=
  [n / 16777216 % 256, n / 65536 % 256, n / 256 % 256, n % 256]

/-- Buffer.readUInt32BE applied to a four-byte slice. -/
def readUInt32BE4 (b : List Nat) : Nat :=
  (b.getD 0 0) * 16777216 + (b.getD 1 0) * 65536 + (b.getD 2 0) * 256 + b.getD 3 0

/-- The manual PKCS#7 padding of WecomCrypto.encrypt: pad to a 32-byte
multiple with padLength bytes of value padLength, where padLength is
32 - length mod 32 (so 32 full bytes when already aligned). -/
def pkcs7Pad32 (plaintext : List Nat) : List Nat :=
  plaintext ++
    List.replicate (32 - plaintext.length % 32) (32 - plaintext.length % 32)

/-- WecomCrypto.encrypt (services/wecom-crypto.js lines 217-253): pack
random(16) | msgLength(4, big-endian) | msg | receiveid, pad with PKCS#7 at
32-byte block, AES-encrypt. The fresh random bytes are passed in explicitly. -/
def WecomEncrypt (aesEncrypt : List Nat → List Nat)
    (randomBytes msg receiveid : List Nat) : List Nat :=
  aesEncrypt (pkcs7Pad32 (randomBytes ++ writeUInt32BE msg.length ++ msg ++ receiveid))

/-- The layout parsing of WecomCrypto.decrypt after unpadding: reject when
shorter than 20 bytes, read the big-endian length at offset 16, reject when
it exceeds the remaining bytes, slice the message, and require the trailing
receiveid to equal the configured corpId. -/
def unpadParse (unpadded corpId : List Nat) : Except String (List Nat) :=
  if unpadded.length < 20 then Except.error "DECRYPT_FAILED"
  else if unpadded.length - 20 < readUInt32BE4 ((unpadded.drop 16).take 4) then
    Except.error "DECRYPT_FAILED"
  else if (unpadded.drop (20 + readUInt32BE4 ((unpadded.drop 16).take 4))) ≠ corpId then
    Except.error "INVALID_CORPID"
  else Except.ok ((unpadded.drop 20).take (readUInt32BE4 ((unpadded.drop 16).take 4)))

/-- The PKCS#7 stripping of WecomCrypto.decrypt: the pad value is the last
byte (an empty decryption fails — in the source it falls through to the
too-short check); it must lie in [1, 32] and not exceed the buffer, every one
of the trailing padLength bytes must equal it, and the rest is parsed. -/
def decryptParse (decrypted corpId : List Nat) : Except String (List Nat) :=
  match decrypted.getLast? with
  | none => Except.error "DECRYPT_FAILED"
  | some padLength =>
    if padLength < 1 ∨ padLength > 32 ∨ padLength > decrypted.length then
      Except.error "DECRYPT_FAILED"
    else if ¬ ((decrypted.drop (decrypted.length - padLength)).all
        (fun b => decide (b = padLength))) then
      Except.error "DECRYPT_FAILED"
    else unpadParse (decrypted.take (decrypted.length - padLength)) corpId

/-- WecomCrypto.decrypt (services/wecom-crypto.js lines 141-206): AES-decrypt,
strip PKCS#7, parse the layout, check the recipient. -/
def WecomDecrypt (aesDecrypt : List Nat → List Nat) (corpId encrypted : List Nat) :
    Except String (List Nat) :=
  decryptParse (aesDecrypt encrypted) corpId

theorem readUInt32BE4_writeUInt32BE (n : Nat) (h : n < 4294967296) :
    readUInt32BE4 (writeUInt32BE n) = n := by
  simp only [writeUInt32BE, readUInt32BE4, List.getD_cons_zero, List.getD_cons_succ]
  omega

theorem length_writeUInt32BE (n : Nat) : (writeUInt32BE n).length = 4 := rfl

theorem decryptParse_pkcs7Pad32 (plaintext corpId : List Nat) :
    decryptParse (pkcs7Pad32 plaintext) corpId = unpadParse plaintext corpId := by
  have hmod : plaintext.length % 32 < 32 := Nat.mod_lt _ (by norm_num)
  set p := 32 - plaintext.length % 32 with hp
  have hp1 : 1 ≤ p := by omega
  have hp32 : p ≤ 32 := by omega
  have hlenpad : (pkcs7Pad32 plaintext).length = plaintext.length + p := by
    simp [pkcs7Pad32]
  have hlast : (pkcs7Pad32 plaintext).getLast? = some p := by
    obtain ⟨pp, hpp⟩ : ∃ pp, p = pp + 1 := ⟨p - 1, by omega⟩
    unfold pkcs7Pad32
    rw [← hp, hpp, List.replicate_succ', ← List.append_assoc, List.getLast?_concat]
  unfold decryptParse
  rw [hlast]
  dsimp only
  have hc1 : ¬ (p < 1 ∨ p > 32 ∨ p > (pkcs7Pad32 plaintext).length) := by
    rw [hlenpad]
    omega
  rw [if_neg hc1]
  have hdrop : (pkcs7Pad32 plaintext).drop ((pkcs7Pad32 plaintext).length - p) =
      List.replicate p p := by
    rw [hlenpad]
    have : plaintext.length + p - p = plaintext.length := by omega
    rw [this]
    unfold pkcs7Pad32
    rw [← hp]
    exact List.drop_left plaintext _
  have hall : ((pkcs7Pad32 plaintext).drop ((pkcs7Pad32 plaintext).length - p)).all
      (fun b => decide (b = p)) = true := by
    rw [hdrop]
    apply List.all_eq_true.mpr
    intro b hb
    have : b = p := List.eq_of_mem_replicate hb
    simp [this]
  rw [if_neg (by simp [hall])]
  have htake : (pkcs7Pad32 plaintext).take ((pkcs7Pad32 plaintext).length - p) = plaintext := by
    rw [hlenpad]
    have : plaintext.length + p - p = plaintext.length := by omega
    rw [this]
    unfold pkcs7Pad32
    rw [← hp]
    exact List.take_left plaintext _
  rw [htake]

theorem unpadParse_roundtrip (randomBytes msg corpId : List Nat)
    (hrand : randomBytes.length = 16) (hm : msg.length < 4294967296) :
    unpadParse (randomBytes ++ writeUInt32BE msg.length ++ msg ++ corpId) corpId
      = Except.ok msg := by
  set pt := randomBytes ++ writeUInt32BE msg.length ++ msg ++ corpId with hpt
  have hlen : pt.length = 20 + msg.length + corpId.length := by
    simp [hpt, length_writeUInt32BE, hrand]
    omega
  have hslice : (pt.drop 16).take 4 = writeUInt32BE msg.length := by
    have h1 : pt = randomBytes ++ (writeUInt32BE msg.length ++ (msg ++ corpId)) := by
      simp [hpt, List.append_assoc]
    rw [h1, ← hrand, List.drop_left]
    rw [← length_writeUInt32BE msg.length, List.take_left]
  have hread : readUInt32BE4 ((pt.drop 16).take 4) = msg.length := by
    rw [hslice]
    exact readUInt32BE4_writeUInt32BE msg.length hm
  unfold unpadParse
  rw [hread]
  have hc1 : ¬ (pt.length < 20) := by omega
  rw [if_neg hc1]
  have hc2 : ¬ (pt.length - 20 < msg.length) := by omega
  rw [if_neg hc2]
  have hrecv : pt.drop (20 + msg.length) = corpId := by
    have h1 : pt = ((randomBytes ++ writeUInt32BE msg.length) ++ msg) ++ corpId := by
      simp [hpt, List.append_assoc]
    have h2 : ((randomBytes ++ writeUInt32BE msg.length) ++ msg).length = 20 + msg.length := by
      simp [length_writeUInt32BE, hrand]
      omega
    rw [h1, ← h2, List.drop_left]
  rw [hrecv]
  rw [if_neg (by simp)]
  have hmsg : (pt.drop 20).take msg.length = msg := by
    have h1 : pt = (randomBytes ++ writeUInt32BE msg.length) ++ (msg ++ corpId) := by
      simp [hpt, List.append_assoc]
    have h2 : (randomBytes ++ writeUInt32BE msg.length).length = 20 := by
      simp [length_writeUInt32BE, hrand]
    rw [h1, ← h2, List.drop_left, List.take_left]
  rw [hmsg]

/-- C8: decrypt inverts encrypt. For any AES pair that the library makes
mutually inverse, any 16-byte random prefix, any plaintext byte sequence of
length at most 10000 and any recipient identifier, decrypting the encryption
recovers exactly the plaintext: the random prefix, big-endian length field,
recipient check and 32-byte-block PKCS#7 padding all invert exactly. -/
theorem C8_theorem (aesEncrypt aesDecrypt : List Nat → List Nat)
    (hinv : ∀ x, aesDecrypt (aesEncrypt x) = x)
    (randomBytes msg corpId : List Nat)
    (hrand : randomBytes.length = 16) (hlen : msg.length ≤ 10000) :
    WecomDecrypt aesDecrypt corpId (WecomEncrypt aesEncrypt randomBytes msg corpId)
      = Except.ok msg := by
  unfold WecomDecrypt WecomEncrypt
  rw [hinv, decryptParse_pkcs7Pad32]
  exact unpadParse_roundtrip randomBytes msg corpId hrand (by omega)

/-- Witness for C8: with the identity cipher pair, a fixed 16-byte random
prefix, the two-byte message [104, 105] and recipient [99], the round trip
returns the message. -/
theorem C8_witness :
    WecomDecrypt id [99] (WecomEncrypt id (List.replicate 16 0) [104, 105] [99])
      = Except.ok [104, 105] :=
  C8_theorem id id (fun _ => rfl) (List.replicate 16 0) [104, 105] [99]
    (by decide) (by decide)

end VacDash
